import Mathlib

/-!
A shallow embedding of the data-integrity core of the `user_service`
repository: the GORM-backed Postgres stores (`repository/user_repository.go`,
`repository/access_level_repository.go`) and the service layer
(`service/user_service.go`, the access-level service), together with proofs
of the behavioural claims about them.

Modelling conventions:
* UUIDs are modelled as `Nat` (the code treats them as opaque identifiers;
  `uuid.New()` results are passed in as explicit parameters).
* `time.Now()` results are passed in as explicit `Nat` parameters.
* A database table is a `List` of rows; GORM's soft-delete default scope
  (`deleted_at IS NULL` added to every query on a model with a
  `gorm.DeletedAt` field, including `Delete`, which becomes
  `UPDATE ... SET deleted_at = now WHERE ... AND deleted_at IS NULL`)
  is written out explicitly at each query, following the generated SQL.
* Uniqueness constraints follow the migration schema
  (`users.email` UNIQUE, `access_levels.name` UNIQUE — both over all rows,
  soft-deleted included — and PRIMARY KEY (user_id, access_level_id) on
  `user_access_levels`): an insert or update that would violate one fails.
* Go errors are modelled as `Except String`; error strings follow the
  `fmt.Errorf` format strings of the source (the `%w`-wrapped driver error
  text is abbreviated, since only the prefix chosen by the code matters).
* bcrypt hashing and verification are library primitives; they enter the
  model as function parameters (`hash : String → String`,
  `verify : String → String → Bool` for `CompareHashAndPassword` success).
-/

/-- Row of the `users` table (`models.User`). -/
structure User where
  id : Nat
  firstName : String
  lastName : String
  email : String
  phoneNumber : Option String
  createdAt : Nat
  updatedAt : Nat
  deletedAt : Option Nat
deriving DecidableEq, Repr

/-- Row of the `user_authentications` table (`models.UserAuthentication`). -/
structure UserAuth where
  id : Nat
  userId : Nat
  passwordHash : String
  createdAt : Nat
  updatedAt : Nat
  deletedAt : Option Nat
deriving DecidableEq, Repr

/-- Row of the `access_levels` table (`models.AccessLevel`). -/
structure AccessLevel where
  id : Nat
  name : String
  description : Option String
  createdAt : Nat
  updatedAt : Nat
  deletedAt : Option Nat
deriving DecidableEq, Repr

/-- Row of the `user_access_levels` join table (`models.UserAccessLevel`);
its primary key is the pair (userId, accessLevelId). -/
structure UserAccessLevel where
  userId : Nat
  accessLevelId : Nat
  createdAt : Nat
  updatedAt : Nat
  deletedAt : Option Nat
deriving DecidableEq, Repr

/-- The four tables of the migration schema. -/
structure DB where
  users : List User
  auths : List UserAuth
  accessLevels : List AccessLevel
  userAccessLevels : List UserAccessLevel
deriving DecidableEq, Repr

deriving instance DecidableEq for Except

/-- Stable structural sort used to model SQL `ORDER BY` (insert into an
already sorted list). -/
def insertSorted {α : Type} (le : α → α → Bool) (x : α) : List α → List α
  | [] => [x]
  | y :: ys => if le x y then x :: y :: ys else y :: insertSorted le x ys

/-- Model of SQL `ORDER BY`: insertion sort with the given comparison. -/
def sortBy {α : Type} (le : α → α → Bool) : List α → List α
  | [] => []
  | x :: xs => insertSorted le x (sortBy le xs)

theorem length_insertSorted {α : Type} (le : α → α → Bool) (x : α) (l : List α) :
    (insertSorted le x l).length = l.length + 1 := by
  induction l with
  | nil => rfl
  | cons y ys ih =>
    simp only [insertSorted]
    split
    · simp
    · simp [ih]

theorem length_sortBy {α : Type} (le : α → α → Bool) (l : List α) :
    (sortBy le l).length = l.length := by
  induction l with
  | nil => rfl
  | cons x xs ih => simp [sortBy, length_insertSorted, ih]

theorem mem_insertSorted {α : Type} (le : α → α → Bool) (x : α) (l : List α) (y : α) :
    y ∈ insertSorted le x l ↔ y = x ∨ y ∈ l := by
  induction l with
  | nil => simp [insertSorted]
  | cons z zs ih =>
    simp only [insertSorted]
    split
    · simp only [List.mem_cons]
    · simp only [List.mem_cons, ih]
      tauto

theorem mem_sortBy {α : Type} (le : α → α → Bool) (l : List α) (y : α) :
    y ∈ sortBy le l ↔ y ∈ l := by
  induction l with
  | nil => simp [sortBy]
  | cons x xs ih => simp [sortBy, mem_insertSorted, ih]

/-! ## PostgresUserRepository (`repository/user_repository.go`) -/

/-- The `users` insert inside the `Create` transaction: fails on a
primary-key or unique-email violation (the migration declares
`email VARCHAR(255) UNIQUE NOT NULL`, over all rows, soft-deleted included). -/
def DB.insertUser (db : DB) (u : User) : Except String DB :=
  if db.users.any (fun r => decide (r.id = u.id ∨ r.email = u.email)) then
    .error "failed to insert user"
  else
    .ok { db with users := db.users ++ [u] }

/-- The `user_authentications` insert inside the `Create` transaction:
fails on a primary-key violation. -/
def DB.insertAuth (db : DB) (a : UserAuth) : Except String DB :=
  if db.auths.any (fun r => decide (r.id = a.id)) then
    .error "failed to insert authentication"
  else
    .ok { db with auths := db.auths ++ [a] }

/-- `PostgresUserRepository.Create`: runs in a `gorm` transaction — assigns
fresh ids (`uuid.New()`, passed here as `uid`/`aid`) and timestamps to both
records, inserts the user row then the authentication row, and rolls the
whole state back (the returned `DB` is the input `DB`) if either insert
fails.  The returned records carry the assigned fields, mirroring the
in-place mutation of the Go structs. -/
def PostgresUserRepository.Create (db : DB) (uid aid now : Nat)
    (user : User) (auth : UserAuth) : Except String (User × UserAuth) × DB :=
  match db.insertUser { user with id := uid, createdAt := now, updatedAt := now } with
  | .error e => (.error e, db)
  | .ok db1 =>
    match db1.insertAuth { auth with id := aid, userId := uid, createdAt := now, updatedAt := now } with
    | .error e => (.error e, db)
    | .ok db2 =>
      (.ok ({ user with id := uid, createdAt := now, updatedAt := now },
            { auth with id := aid, userId := uid, createdAt := now, updatedAt := now }),
       db2)

/-- `PostgresUserRepository.GetByID`: `First` under the soft-delete scope
(`WHERE id = ? AND deleted_at IS NULL`); `gorm.ErrRecordNotFound` becomes
"user not found". -/
def PostgresUserRepository.GetByID (db : DB) (id : Nat) : Except String User :=
  match db.users.find? (fun r => decide (r.id = id ∧ r.deletedAt = none)) with
  | some u => .ok u
  | none => .error "user not found"

/-- `PostgresUserRepository.GetByEmail`: `First` under the soft-delete scope
(`WHERE email = ? AND deleted_at IS NULL`). -/
def PostgresUserRepository.GetByEmail (db : DB) (email : String) : Except String User :=
  match db.users.find? (fun r => decide (r.email = email ∧ r.deletedAt = none)) with
  | some u => .ok u
  | none => .error "user not found"

/-- `PostgresUserRepository.Update`: `UPDATE users SET first_name, last_name,
email, phone_number, updated_at WHERE id = ? AND deleted_at IS NULL`.
A unique-email violation (some row not covered by this update already holds
the email) is a driver error; otherwise `RowsAffected = 0` yields
"user not found".  Returns the record with its bumped `updatedAt`,
mirroring the in-place mutation. -/
def PostgresUserRepository.Update (db : DB) (now : Nat) (user : User) :
    Except String User × DB :=
  if db.users.any (fun r =>
      decide (¬(r.id = user.id ∧ r.deletedAt = none) ∧ r.email = user.email)) then
    (.error "failed to update user", db)
  else if db.users.countP (fun r => decide (r.id = user.id ∧ r.deletedAt = none)) = 0 then
    (.error "user not found", db)
  else
    (.ok { user with updatedAt := now },
     { db with users := db.users.map (fun r =>
        if r.id = user.id ∧ r.deletedAt = none then
          { r with firstName := user.firstName, lastName := user.lastName,
                   email := user.email, phoneNumber := user.phoneNumber,
                   updatedAt := now }
        else r) })

/-- `PostgresUserRepository.Delete`: GORM soft delete —
`UPDATE users SET deleted_at = now WHERE id = ? AND deleted_at IS NULL`;
`RowsAffected = 0` yields "user not found". -/
def PostgresUserRepository.Delete (db : DB) (now : Nat) (id : Nat) :
    Except String Unit × DB :=
  if db.users.countP (fun r => decide (r.id = id ∧ r.deletedAt = none)) = 0 then
    (.error "user not found", db)
  else
    (.ok (), { db with users := db.users.map (fun r =>
       if r.id = id ∧ r.deletedAt = none then { r with deletedAt := some now } else r) })

/-- `PostgresUserRepository.List`: counts all non-deleted users, then returns
the page `ORDER BY created_at DESC LIMIT ? OFFSET ?` (the service only ever
passes non-negative limit and offset, which is the range modelled by
`Int.toNat` here). -/
def PostgresUserRepository.List (db : DB) (limit offset : Int) :
    Except String (List User × Int) :=
  let active := db.users.filter (fun u => decide (u.deletedAt = none))
  let total : Int := (active.length : Int)
  let sorted := sortBy (fun a b => decide (b.createdAt ≤ a.createdAt)) active
  .ok ((sorted.drop offset.toNat).take limit.toNat, total)

/-- `PostgresUserRepository.GetUserAuthentication`: `First` under the
soft-delete scope (`WHERE user_id = ? AND deleted_at IS NULL`). -/
def PostgresUserRepository.GetUserAuthentication (db : DB) (userID : Nat) :
    Except String UserAuth :=
  match db.auths.find? (fun r => decide (r.userId = userID ∧ r.deletedAt = none)) with
  | some a => .ok a
  | none => .error "authentication not found"

/-! ## PostgresAccessLevelRepository (`repository/access_level_repository.go`) -/

/-- `PostgresAccessLevelRepository.Create`: sets fresh timestamps and inserts;
the id is `SERIAL` (one more than the largest id ever used), and the insert
fails on a unique-name violation (`name VARCHAR(50) UNIQUE`, over all rows). -/
def PostgresAccessLevelRepository.Create (db : DB) (now : Nat) (al : AccessLevel) :
    Except String AccessLevel × DB :=
  let newId := (db.accessLevels.map (fun r => r.id)).foldr max 0 + 1
  let a := { al with id := newId, createdAt := now, updatedAt := now }
  if db.accessLevels.any (fun r => decide (r.name = a.name)) then
    (.error "failed to create access level", db)
  else
    (.ok a, { db with accessLevels := db.accessLevels ++ [a] })

/-- `PostgresAccessLevelRepository.GetByID` under the soft-delete scope. -/
def PostgresAccessLevelRepository.GetByID (db : DB) (id : Nat) :
    Except String AccessLevel :=
  match db.accessLevels.find? (fun r => decide (r.id = id ∧ r.deletedAt = none)) with
  | some a => .ok a
  | none => .error "access level not found"

/-- `PostgresAccessLevelRepository.GetByName` under the soft-delete scope. -/
def PostgresAccessLevelRepository.GetByName (db : DB) (name : String) :
    Except String AccessLevel :=
  match db.accessLevels.find? (fun r => decide (r.name = name ∧ r.deletedAt = none)) with
  | some a => .ok a
  | none => .error "access level not found"

/-- `PostgresAccessLevelRepository.List`: all non-deleted levels
`ORDER BY name ASC`. -/
def PostgresAccessLevelRepository.ListAll (db : DB) :
    Except String (List AccessLevel) :=
  .ok (sortBy (fun a b => decide (a.name ≤ b.name))
    (db.accessLevels.filter (fun r => decide (r.deletedAt = none))))

/-- Key predicate for the (user_id, access_level_id) primary key of the join
table. -/
def UserAccessLevel.isPair (userID accessLevelID : Nat) (r : UserAccessLevel) : Bool :=
  decide (r.userId = userID ∧ r.accessLevelId = accessLevelID)

/-- Key predicate restricted to active (not soft-deleted) rows — the rows a
GORM query on the join table actually touches. -/
def UserAccessLevel.isActivePair (userID accessLevelID : Nat) (r : UserAccessLevel) : Bool :=
  decide (r.userId = userID ∧ r.accessLevelId = accessLevelID ∧ r.deletedAt = none)

/-- `PostgresAccessLevelRepository.AssignToUser` — the atomic upsert:
`INSERT ... ON CONFLICT (user_id, access_level_id) DO UPDATE SET
deleted_at = NULL, updated_at = now`.  If a row for the pair exists
(whatever its soft-delete state) it is revived in place; otherwise a fresh
row is inserted (which requires both referenced rows to exist, per the
foreign keys of the join table). -/
def PostgresAccessLevelRepository.AssignToUser (db : DB) (now : Nat)
    (userID accessLevelID : Nat) : Except String Unit × DB :=
  if db.userAccessLevels.any (UserAccessLevel.isPair userID accessLevelID) then
    (.ok (), { db with userAccessLevels := db.userAccessLevels.map (fun r =>
       if UserAccessLevel.isPair userID accessLevelID r then
         { r with deletedAt := none, updatedAt := now }
       else r) })
  else if db.users.any (fun u => decide (u.id = userID)) &&
          db.accessLevels.any (fun a => decide (a.id = accessLevelID)) then
    (.ok (), { db with userAccessLevels := db.userAccessLevels ++
       [{ userId := userID, accessLevelId := accessLevelID,
          createdAt := now, updatedAt := now, deletedAt := none }] })
  else
    (.error "failed to assign access level to user", db)

/-- `PostgresAccessLevelRepository.RemoveFromUser`: GORM soft delete —
`UPDATE user_access_levels SET deleted_at = now WHERE user_id = ? AND
access_level_id = ? AND deleted_at IS NULL`; `RowsAffected = 0` yields
"user access level not found". -/
def PostgresAccessLevelRepository.RemoveFromUser (db : DB) (now : Nat)
    (userID accessLevelID : Nat) : Except String Unit × DB :=
  if db.userAccessLevels.countP (UserAccessLevel.isActivePair userID accessLevelID) = 0 then
    (.error "user access level not found", db)
  else
    (.ok (), { db with userAccessLevels := db.userAccessLevels.map (fun r =>
       if UserAccessLevel.isActivePair userID accessLevelID r then
         { r with deletedAt := some now }
       else r) })

/-- `PostgresAccessLevelRepository.GetUserAccessLevels`: inner join of
`access_levels` (under its soft-delete scope) with the active assignment
rows of the given user, `ORDER BY access_levels.name ASC`. -/
def PostgresAccessLevelRepository.GetUserAccessLevels (db : DB) (userID : Nat) :
    Except String (List AccessLevel) :=
  .ok (sortBy (fun a b => decide (a.name ≤ b.name))
    (db.accessLevels.filter (fun l =>
      decide (l.deletedAt = none) &&
      db.userAccessLevels.any (UserAccessLevel.isActivePair userID l.id))))

/-! ## DTOs (`dto/user_dto.go`) -/

/-- `dto.CreateUserRequest`. -/
structure CreateUserRequest where
  firstName : String
  lastName : String
  email : String
  phoneNumber : String
  password : String
deriving DecidableEq, Repr

/-- `dto.UpdateUserRequest`. -/
structure UpdateUserRequest where
  firstName : String
  lastName : String
  email : String
  phoneNumber : String
deriving DecidableEq, Repr

/-- `dto.LoginRequest`. -/
structure LoginRequest where
  email : String
  password : String
deriving DecidableEq, Repr

/-- `dto.AccessLevelResponse`. -/
structure AccessLevelResponse where
  id : Nat
  name : String
  description : String
deriving DecidableEq, Repr

/-- `dto.UserResponse` (`accessLevels = []` models the omitted/nil slice). -/
structure UserResponse where
  id : Nat
  firstName : String
  lastName : String
  email : String
  phoneNumber : String
  accessLevels : List AccessLevelResponse
  createdAt : Nat
  updatedAt : Nat
deriving DecidableEq, Repr

/-- `dto.LoginResponse`. -/
structure LoginResponse where
  user : UserResponse
  message : String
deriving DecidableEq, Repr

/-- `dto.ListUsersResponse`. -/
structure ListUsersResponse where
  users : List UserResponse
  total : Int
  page : Int
  pageSize : Int
deriving DecidableEq, Repr

/-- `dto.CreateAccessLevelRequest`. -/
structure CreateAccessLevelRequest where
  name : String
  description : String
deriving DecidableEq, Repr

/-! ## Repository interfaces (`repository.UserRepository`,
`repository.AccessLevelRepository` in `repository/user_repository.go`)

The services are written against these interfaces and receive an
implementation at construction (`NewUserService(userRepo, accessLevelRepo)`);
the records below reproduce that seam, with the Postgres implementations
bundled as the canonical instances. -/

/-- The `repository.UserRepository` interface. -/
structure UserRepositoryI where
  create : DB → Nat → Nat → Nat → User → UserAuth → Except String (User × UserAuth) × DB
  getByID : DB → Nat → Except String User
  getByEmail : DB → String → Except String User
  update : DB → Nat → User → Except String User × DB
  delete : DB → Nat → Nat → Except String Unit × DB
  list : DB → Int → Int → Except String (List User × Int)
  getUserAuthentication : DB → Nat → Except String UserAuth

/-- The `repository.AccessLevelRepository` interface. -/
structure AccessLevelRepositoryI where
  create : DB → Nat → AccessLevel → Except String AccessLevel × DB
  getByID : DB → Nat → Except String AccessLevel
  getByName : DB → String → Except String AccessLevel
  listAll : DB → Except String (List AccessLevel)
  assignToUser : DB → Nat → Nat → Nat → Except String Unit × DB
  removeFromUser : DB → Nat → Nat → Nat → Except String Unit × DB
  getUserAccessLevels : DB → Nat → Except String (List AccessLevel)

/-- The Postgres implementation of `repository.UserRepository`. -/
def postgresUserRepo : UserRepositoryI where
  create := PostgresUserRepository.Create
  getByID := PostgresUserRepository.GetByID
  getByEmail := PostgresUserRepository.GetByEmail
  update := PostgresUserRepository.Update
  delete := PostgresUserRepository.Delete
  list := PostgresUserRepository.List
  getUserAuthentication := PostgresUserRepository.GetUserAuthentication

/-- The Postgres implementation of `repository.AccessLevelRepository`. -/
def postgresAccessLevelRepo : AccessLevelRepositoryI where
  create := PostgresAccessLevelRepository.Create
  getByID := PostgresAccessLevelRepository.GetByID
  getByName := PostgresAccessLevelRepository.GetByName
  listAll := PostgresAccessLevelRepository.ListAll
  assignToUser := PostgresAccessLevelRepository.AssignToUser
  removeFromUser := PostgresAccessLevelRepository.RemoveFromUser
  getUserAccessLevels := PostgresAccessLevelRepository.GetUserAccessLevels

/-! ## UserService (`service/user_service.go`) -/

/-- Test of `strings.TrimSpace(s) == ""` as used by the validator: true iff
every character of `s` is whitespace. -/
def isBlank (s : String) : Bool := s.data.all Char.isWhitespace

/-- `strings.Contains(s, "@")` (single-character needle). -/
def containsAtSign (s : String) : Bool := s.data.contains '@'

/-- `UserService.validateCreateUserRequest`.  `len(req.Password)` counts
bytes in Go and characters here; the two agree on ASCII passwords and the
distinction plays no role in the claims. -/
def UserService.validateCreateUserRequest (req : CreateUserRequest) : Except String Unit :=
  if isBlank req.firstName then .error "first name is required"
  else if isBlank req.lastName then .error "last name is required"
  else if isBlank req.email then .error "email is required"
  else if !containsAtSign req.email then .error "invalid email format"
  else if req.password.length < 8 then .error "password must be at least 8 characters"
  else .ok ()

/-- Shape one `models.AccessLevel` into a `dto.AccessLevelResponse`
(unset description becomes the empty string). -/
def toAccessLevelResponse (al : AccessLevel) : AccessLevelResponse :=
  { id := al.id, name := al.name,
    description := match al.description with
      | some d => d
      | none => "" }

/-- `UserService.toUserResponse`: copies the account fields and attaches the
active roles; a role-lookup error or an empty role list leaves
`accessLevels` empty (`if err == nil && len(accessLevels) > 0`). -/
def UserService.toUserResponse (alr : AccessLevelRepositoryI) (db : DB) (user : User) :
    UserResponse :=
  let base : UserResponse :=
    { id := user.id, firstName := user.firstName, lastName := user.lastName,
      email := user.email,
      phoneNumber := match user.phoneNumber with
        | some p => p
        | none => "",
      accessLevels := [], createdAt := user.createdAt, updatedAt := user.updatedAt }
  match alr.getUserAccessLevels db user.id with
  | .ok als =>
    if als.length > 0 then { base with accessLevels := als.map toAccessLevelResponse }
    else base
  | .error _ => base

/-- `UserService.CreateUser`: validate; duplicate-email check (note the
source discards the lookup error: `existingUser, _ := GetByEmail(...)`, so
any lookup failure is treated as "no existing user"); hash the password
(`hash` stands for `bcrypt.GenerateFromPassword`); delegate to the store's
transactional `Create`. -/
def UserService.CreateUser (ur : UserRepositoryI) (alr : AccessLevelRepositoryI)
    (hash : String → String) (db : DB) (uid aid now : Nat) (req : CreateUserRequest) :
    Except String UserResponse × DB :=
  match UserService.validateCreateUserRequest req with
  | .error e => (.error e, db)
  | .ok _ =>
    match ur.getByEmail db req.email with
    | .ok _ => (.error ("user with email " ++ req.email ++ " already exists"), db)
    | .error _ =>
      let user : User :=
        { id := 0, firstName := req.firstName, lastName := req.lastName,
          email := req.email,
          phoneNumber := if req.phoneNumber ≠ "" then some req.phoneNumber else none,
          createdAt := 0, updatedAt := 0, deletedAt := none }
      let auth : UserAuth :=
        { id := 0, userId := 0, passwordHash := hash req.password,
          createdAt := 0, updatedAt := 0, deletedAt := none }
      match ur.create db uid aid now user auth with
      | (.error e, db') => (.error ("failed to create user: " ++ e), db')
      | (.ok (u, _), db') => (.ok (UserService.toUserResponse alr db' u), db')

/-- `UserService.GetUser`. -/
def UserService.GetUser (ur : UserRepositoryI) (alr : AccessLevelRepositoryI)
    (db : DB) (id : Nat) : Except String UserResponse :=
  match ur.getByID db id with
  | .error e => .error e
  | .ok user => .ok (UserService.toUserResponse alr db user)

/-- The email step of `UserService.UpdateUser` (lines 92-99 of the source):
when the request carries an email, check that it is not taken by a
different account (the lookup error is discarded —
`existingUser, _ := GetByEmail(...)`) and overwrite the field. -/
def UserService.resolveUpdateEmail (ur : UserRepositoryI) (db : DB) (id : Nat)
    (req : UpdateUserRequest) (user2 : User) : Except String User :=
  if req.email ≠ "" then
    match ur.getByEmail db req.email with
    | .ok existing =>
      if existing.id ≠ id then .error ("email " ++ req.email ++ " is already taken")
      else .ok { user2 with email := req.email }
    | .error _ => .ok { user2 with email := req.email }
  else .ok user2

/-- The persistence step of `UserService.UpdateUser` (lines 100-110 of the
source): overwrite the phone if provided, save via the store's `Update`,
and shape the response. -/
def UserService.finishUpdate (ur : UserRepositoryI) (alr : AccessLevelRepositoryI)
    (db : DB) (now : Nat) (req : UpdateUserRequest) (user3 : User) :
    Except String UserResponse × DB :=
  let user4 := if req.phoneNumber ≠ "" then { user3 with phoneNumber := some req.phoneNumber } else user3
  let upd := ur.update db now user4
  match upd.1 with
  | .error e => (.error ("failed to update user: " ++ e), upd.2)
  | .ok u => (.ok (UserService.toUserResponse alr upd.2 u), upd.2)

/-- `UserService.UpdateUser`: load the account; overwrite each field only if
the request value is non-empty; when the email is provided, check it is not
taken by a different account; persist via the store's `Update`. -/
def UserService.UpdateUser (ur : UserRepositoryI) (alr : AccessLevelRepositoryI)
    (db : DB) (now : Nat) (id : Nat) (req : UpdateUserRequest) :
    Except String UserResponse × DB :=
  match ur.getByID db id with
  | .error e => (.error e, db)
  | .ok user0 =>
    let user1 := if req.firstName ≠ "" then { user0 with firstName := req.firstName } else user0
    let user2 := if req.lastName ≠ "" then { user1 with lastName := req.lastName } else user1
    match UserService.resolveUpdateEmail ur db id req user2 with
    | .error e => (.error e, db)
    | .ok user3 => UserService.finishUpdate ur alr db now req user3

/-- `UserService.DeleteUser`: thin delegation. -/
def UserService.DeleteUser (ur : UserRepositoryI) (db : DB) (now : Nat) (id : Nat) :
    Except String Unit × DB :=
  ur.delete db now id

/-- `UserService.ListUsers`: normalizes `page` to at least 1 and `pageSize`
to 10 when outside [1,100], queries the store with
`offset = (page-1)*pageSize` and `limit = pageSize`, and shapes each row. -/
def UserService.ListUsers (ur : UserRepositoryI) (alr : AccessLevelRepositoryI)
    (db : DB) (page0 pageSize0 : Int) : Except String ListUsersResponse :=
  let page := if page0 < 1 then 1 else page0
  let pageSize := if pageSize0 < 1 || pageSize0 > 100 then 10 else pageSize0
  let offset := (page - 1) * pageSize
  match ur.list db pageSize offset with
  | .error e => .error e
  | .ok (users, total) =>
    .ok { users := users.map (UserService.toUserResponse alr db),
          total := total, page := page, pageSize := pageSize }

/-- `UserService.AuthenticateUser`: account by email, then credential, then
hash comparison (`verify h p` is `bcrypt.CompareHashAndPassword(h, p) == nil`);
every failure returns the one uniform error. -/
def UserService.AuthenticateUser (ur : UserRepositoryI) (alr : AccessLevelRepositoryI)
    (verify : String → String → Bool) (db : DB) (req : LoginRequest) :
    Except String LoginResponse :=
  match ur.getByEmail db req.email with
  | .error _ => .error "invalid email or password"
  | .ok user =>
    match ur.getUserAuthentication db user.id with
    | .error _ => .error "invalid email or password"
    | .ok auth =>
      if verify auth.passwordHash req.password then
        .ok { user := UserService.toUserResponse alr db user, message := "Login successful" }
      else
        .error "invalid email or password"

/-! ## AccessLevelService (`service/access_level_service.go`) -/

/-- `AccessLevelService.CreateAccessLevel`: duplicate-name check (the lookup
error is discarded: `existing, _ := GetByName(...)`), then delegation to the
store's `Create`. -/
def AccessLevelService.CreateAccessLevel (alr : AccessLevelRepositoryI)
    (db : DB) (now : Nat) (req : CreateAccessLevelRequest) :
    Except String AccessLevelResponse × DB :=
  match alr.getByName db req.name with
  | .ok _ => (.error ("access level with name " ++ req.name ++ " already exists"), db)
  | .error _ =>
    let al : AccessLevel :=
      { id := 0, name := req.name,
        description := if req.description ≠ "" then some req.description else none,
        createdAt := 0, updatedAt := 0, deletedAt := none }
    match alr.create db now al with
    | (.error e, db') => (.error ("failed to create access level: " ++ e), db')
    | (.ok a, db') => (.ok (toAccessLevelResponse a), db')

/-! ## Lemmas about the join-table operations -/

theorem isPair_eq_true_iff (u a : Nat) (r : UserAccessLevel) :
    UserAccessLevel.isPair u a r = true ↔ r.userId = u ∧ r.accessLevelId = a := by
  simp [UserAccessLevel.isPair]

theorem isActivePair_eq_true_iff (u a : Nat) (r : UserAccessLevel) :
    UserAccessLevel.isActivePair u a r = true ↔
      r.userId = u ∧ r.accessLevelId = a ∧ r.deletedAt = none := by
  simp [UserAccessLevel.isActivePair]

/-- A row transformation keeping the primary-key columns keeps `isPair`. -/
theorem isPair_of_keyPreserving (u a : Nat) (f : UserAccessLevel → UserAccessLevel)
    (hf : ∀ r, (f r).userId = r.userId ∧ (f r).accessLevelId = r.accessLevelId)
    (r : UserAccessLevel) :
    UserAccessLevel.isPair u a (f r) = UserAccessLevel.isPair u a r := by
  simp [UserAccessLevel.isPair, (hf r).1, (hf r).2]

theorem countP_isPair_map (u a : Nat) (f : UserAccessLevel → UserAccessLevel)
    (hf : ∀ r, (f r).userId = r.userId ∧ (f r).accessLevelId = r.accessLevelId)
    (l : List UserAccessLevel) :
    (l.map f).countP (UserAccessLevel.isPair u a) = l.countP (UserAccessLevel.isPair u a) := by
  induction l with
  | nil => rfl
  | cons r rs ih =>
    simp only [List.map_cons, List.countP_cons, ih, isPair_of_keyPreserving u a f hf r]

theorem any_isPair_map (u a : Nat) (f : UserAccessLevel → UserAccessLevel)
    (hf : ∀ r, (f r).userId = r.userId ∧ (f r).accessLevelId = r.accessLevelId)
    (l : List UserAccessLevel) :
    (l.map f).any (UserAccessLevel.isPair u a) = l.any (UserAccessLevel.isPair u a) := by
  induction l with
  | nil => rfl
  | cons r rs ih =>
    simp only [List.map_cons, List.any_cons, ih, isPair_of_keyPreserving u a f hf r]

/-- The revive branch of the upsert keeps the key columns. -/
theorem reviveRow_keyPreserving (u a now : Nat) :
    ∀ r : UserAccessLevel,
      ((if UserAccessLevel.isPair u a r then
          { r with deletedAt := none, updatedAt := now } else r).userId = r.userId ∧
       (if UserAccessLevel.isPair u a r then
          { r with deletedAt := none, updatedAt := now } else r).accessLevelId = r.accessLevelId) := by
  intro r
  by_cases h : UserAccessLevel.isPair u a r <;> simp [h]

/-- The soft-delete branch of `RemoveFromUser` keeps the key columns. -/
theorem removeRow_keyPreserving (u a now : Nat) :
    ∀ r : UserAccessLevel,
      ((if UserAccessLevel.isActivePair u a r then
          { r with deletedAt := some now } else r).userId = r.userId ∧
       (if UserAccessLevel.isActivePair u a r then
          { r with deletedAt := some now } else r).accessLevelId = r.accessLevelId) := by
  intro r
  by_cases h : UserAccessLevel.isActivePair u a r <;> simp [h]

/-- `AssignToUser` succeeds whenever a row for the pair already exists. -/
theorem assignToUser_ok_of_any (db : DB) (now u a : Nat)
    (h : db.userAccessLevels.any (UserAccessLevel.isPair u a) = true) :
    (PostgresAccessLevelRepository.AssignToUser db now u a).1 = .ok () := by
  simp [PostgresAccessLevelRepository.AssignToUser, h]

/-- After a successful `AssignToUser`, a row for the pair exists. -/
theorem assignToUser_post_any (db : DB) (now u a : Nat)
    (h : (PostgresAccessLevelRepository.AssignToUser db now u a).1 = .ok ()) :
    (PostgresAccessLevelRepository.AssignToUser db now u a).2.userAccessLevels.any
      (UserAccessLevel.isPair u a) = true := by
  by_cases h1 : db.userAccessLevels.any (UserAccessLevel.isPair u a) = true
  · simp only [PostgresAccessLevelRepository.AssignToUser, h1, if_true]
    rw [any_isPair_map u a _ (reviveRow_keyPreserving u a now)]
    exact h1
  · by_cases h2 : (db.users.any (fun x => decide (x.id = u)) &&
        db.accessLevels.any (fun x => decide (x.id = a))) = true
    · simp only [PostgresAccessLevelRepository.AssignToUser, h1, if_false, h2, if_true]
      simp [UserAccessLevel.isPair]
    · simp [PostgresAccessLevelRepository.AssignToUser, h1, h2] at h

/-- After a successful `AssignToUser`, every row for the pair is active and
carries `updatedAt = now`. -/
theorem assignToUser_pair_rows (db : DB) (now u a : Nat)
    (h : (PostgresAccessLevelRepository.AssignToUser db now u a).1 = .ok ()) :
    ∀ r ∈ (PostgresAccessLevelRepository.AssignToUser db now u a).2.userAccessLevels,
      UserAccessLevel.isPair u a r = true → r.deletedAt = none ∧ r.updatedAt = now := by
  by_cases h1 : db.userAccessLevels.any (UserAccessLevel.isPair u a) = true
  · simp only [PostgresAccessLevelRepository.AssignToUser, h1, if_true]
    intro r hr hp
    obtain ⟨x, hx, rfl⟩ := List.mem_map.1 hr
    by_cases hx2 : UserAccessLevel.isPair u a x
    · simp [hx2]
    · rw [if_neg hx2] at hp
      exact absurd hp hx2
  · by_cases h2 : (db.users.any (fun x => decide (x.id = u)) &&
        db.accessLevels.any (fun x => decide (x.id = a))) = true
    · simp only [PostgresAccessLevelRepository.AssignToUser, h1, if_false, h2, if_true]
      intro r hr hp
      rcases List.mem_append.1 hr with hmem | hmem
      · exact absurd (List.any_eq_true.2 ⟨r, hmem, hp⟩) h1
      · rcases List.mem_singleton.1 hmem with rfl
        exact ⟨rfl, rfl⟩
    · simp [PostgresAccessLevelRepository.AssignToUser, h1, h2] at h

/-- After a successful `AssignToUser` on a state respecting the primary key,
the pair has exactly one row. -/
theorem assignToUser_countP (db : DB) (now u a : Nat)
    (hpk : db.userAccessLevels.countP (UserAccessLevel.isPair u a) ≤ 1)
    (h : (PostgresAccessLevelRepository.AssignToUser db now u a).1 = .ok ()) :
    (PostgresAccessLevelRepository.AssignToUser db now u a).2.userAccessLevels.countP
      (UserAccessLevel.isPair u a) = 1 := by
  by_cases h1 : db.userAccessLevels.any (UserAccessLevel.isPair u a) = true
  · simp only [PostgresAccessLevelRepository.AssignToUser, h1, if_true]
    rw [countP_isPair_map u a _ (reviveRow_keyPreserving u a now)]
    obtain ⟨r, hr, hp⟩ := List.any_eq_true.1 h1
    have hpos : 0 < db.userAccessLevels.countP (UserAccessLevel.isPair u a) :=
      List.countP_pos_iff.2 ⟨r, hr, hp⟩
    omega
  · by_cases h2 : (db.users.any (fun x => decide (x.id = u)) &&
        db.accessLevels.any (fun x => decide (x.id = a))) = true
    · have h1f : db.userAccessLevels.any (UserAccessLevel.isPair u a) = false := by
        rwa [Bool.not_eq_true] at h1
      simp only [PostgresAccessLevelRepository.AssignToUser, h1f, Bool.false_eq_true,
        if_false, h2, if_true]
      rw [List.countP_append]
      have hz : db.userAccessLevels.countP (UserAccessLevel.isPair u a) = 0 := by
        rw [List.countP_eq_zero]
        intro r hr hp
        exact h1 (List.any_eq_true.2 ⟨r, hr, hp⟩)
      rw [hz]
      simp [UserAccessLevel.isPair]
    · simp [PostgresAccessLevelRepository.AssignToUser, h1, h2] at h

/-- `RemoveFromUser` keeps the number of rows of every pair. -/
theorem removeFromUser_countP (db : DB) (now u a u' a' : Nat) :
    (PostgresAccessLevelRepository.RemoveFromUser db now u a).2.userAccessLevels.countP
        (UserAccessLevel.isPair u' a')
      = db.userAccessLevels.countP (UserAccessLevel.isPair u' a') := by
  by_cases h : db.userAccessLevels.countP (UserAccessLevel.isActivePair u a) = 0
  · simp [PostgresAccessLevelRepository.RemoveFromUser, h]
  · simp only [PostgresAccessLevelRepository.RemoveFromUser, h, if_false]
    exact countP_isPair_map u' a' _ (removeRow_keyPreserving u a now) _

/-- If every row of the pair is active and one exists, `RemoveFromUser`
succeeds and afterwards every row of the pair is soft-deleted at `now`. -/
theorem removeFromUser_pair_rows (db : DB) (now u a : Nat)
    (hall : ∀ r ∈ db.userAccessLevels,
      UserAccessLevel.isPair u a r = true → r.deletedAt = none)
    (hsome : db.userAccessLevels.any (UserAccessLevel.isPair u a) = true) :
    (PostgresAccessLevelRepository.RemoveFromUser db now u a).1 = .ok () ∧
    ∀ r ∈ (PostgresAccessLevelRepository.RemoveFromUser db now u a).2.userAccessLevels,
      UserAccessLevel.isPair u a r = true → r.deletedAt = some now := by
  obtain ⟨x, hx, hp⟩ := List.any_eq_true.1 hsome
  have hxact : UserAccessLevel.isActivePair u a x = true := by
    rw [isActivePair_eq_true_iff]
    obtain ⟨h1, h2⟩ := (isPair_eq_true_iff u a x).1 hp
    exact ⟨h1, h2, hall x hx hp⟩
  have hcnt : db.userAccessLevels.countP (UserAccessLevel.isActivePair u a) ≠ 0 := by
    have := List.countP_pos_iff.2 ⟨x, hx, hxact⟩
    omega
  constructor
  · simp [PostgresAccessLevelRepository.RemoveFromUser, hcnt]
  · simp only [PostgresAccessLevelRepository.RemoveFromUser, hcnt, if_false]
    intro r hr hpr
    obtain ⟨y, hy, rfl⟩ := List.mem_map.1 hr
    by_cases hy2 : UserAccessLevel.isActivePair u a y
    · simp [hy2]
    · rw [if_neg hy2] at hpr ⊢
      have : UserAccessLevel.isActivePair u a y = true := by
        rw [isActivePair_eq_true_iff]
        obtain ⟨h1, h2⟩ := (isPair_eq_true_iff u a y).1 hpr
        exact ⟨h1, h2, hall y hy hpr⟩
      exact absurd this hy2

/-! ## Claims C1, C2, C6 -/

/-- C1: AssignToUser is idempotent — starting from a state where the pair
(accountID, accessLevelID) has at most one join row (the primary-key
invariant) and a first `AssignToUser` succeeds, a second `AssignToUser` for
the same pair also succeeds, and afterwards exactly one `AccountAccessLevel`
row exists for the pair and that row is active (deleted-at = null): the
second call does not create a second row. -/
theorem c1_assignToUser_idempotent (db : DB) (now1 now2 userID accessLevelID : Nat)
    (hpk : db.userAccessLevels.countP (UserAccessLevel.isPair userID accessLevelID) ≤ 1)
    (h1 : (PostgresAccessLevelRepository.AssignToUser db now1 userID accessLevelID).1 = .ok ()) :
    (PostgresAccessLevelRepository.AssignToUser
       (PostgresAccessLevelRepository.AssignToUser db now1 userID accessLevelID).2
       now2 userID accessLevelID).1 = .ok () ∧
    (PostgresAccessLevelRepository.AssignToUser
       (PostgresAccessLevelRepository.AssignToUser db now1 userID accessLevelID).2
       now2 userID accessLevelID).2.userAccessLevels.countP
      (UserAccessLevel.isPair userID accessLevelID) = 1 ∧
    ∀ r ∈ (PostgresAccessLevelRepository.AssignToUser
       (PostgresAccessLevelRepository.AssignToUser db now1 userID accessLevelID).2
       now2 userID accessLevelID).2.userAccessLevels,
      UserAccessLevel.isPair userID accessLevelID r = true → r.deletedAt = none := by
  have hany1 := assignToUser_post_any db now1 userID accessLevelID h1
  have hok2 := assignToUser_ok_of_any _ now2 userID accessLevelID hany1
  have hcnt1 := assignToUser_countP db now1 userID accessLevelID hpk h1
  refine ⟨hok2, assignToUser_countP _ now2 userID accessLevelID (by omega) hok2, ?_⟩
  intro r hr hp
  exact (assignToUser_pair_rows _ now2 userID accessLevelID hok2 r hr hp).1

/-- Concrete state for witnesses: one user (id 1), one access level (id 1),
no assignment yet. -/
def dbOneUserOneLevel : DB :=
  { users := [{ id := 1, firstName := "John", lastName := "Doe",
                email := "john@example.com", phoneNumber := none,
                createdAt := 0, updatedAt := 0, deletedAt := none }],
    auths := [],
    accessLevels := [{ id := 1, name := "admin", description := none,
                       createdAt := 0, updatedAt := 0, deletedAt := none }],
    userAccessLevels := [] }

/-- Witness for C1 at `dbOneUserOneLevel`: the hypotheses hold there and the
second assign succeeds. -/
theorem c1_assignToUser_idempotent_witness :
    dbOneUserOneLevel.userAccessLevels.countP (UserAccessLevel.isPair 1 1) ≤ 1 ∧
    (PostgresAccessLevelRepository.AssignToUser dbOneUserOneLevel 5 1 1).1 = .ok () ∧
    (PostgresAccessLevelRepository.AssignToUser
      (PostgresAccessLevelRepository.AssignToUser dbOneUserOneLevel 5 1 1).2
      7 1 1).1 = .ok () :=
  ⟨by decide, by decide,
   (c1_assignToUser_idempotent dbOneUserOneLevel 5 7 1 1 (by decide) (by decide)).1⟩

/-- C2: revival after removal — starting from a state respecting the
primary-key invariant for the pair, after a successful AssignToUser (at
`now1`), RemoveFromUser (at `now2`) succeeds, a second AssignToUser (at
`now3`) succeeds, and the final state has exactly one row for the pair,
active (deleted-at = null); and with a clock that advanced between the two
assigns (`now1 < now3`), the row's updated-at after the second assign is
strictly greater than the updated-at any pair row had after the first
assign. -/
theorem c2_assign_remove_assign_revives (db : DB) (now1 now2 now3 userID accessLevelID : Nat)
    (hpk : db.userAccessLevels.countP (UserAccessLevel.isPair userID accessLevelID) ≤ 1)
    (h1 : (PostgresAccessLevelRepository.AssignToUser db now1 userID accessLevelID).1 = .ok ())
    (h13 : now1 < now3) :
    (PostgresAccessLevelRepository.RemoveFromUser
       (PostgresAccessLevelRepository.AssignToUser db now1 userID accessLevelID).2
       now2 userID accessLevelID).1 = .ok () ∧
    (PostgresAccessLevelRepository.AssignToUser
       (PostgresAccessLevelRepository.RemoveFromUser
          (PostgresAccessLevelRepository.AssignToUser db now1 userID accessLevelID).2
          now2 userID accessLevelID).2
       now3 userID accessLevelID).1 = .ok () ∧
    (PostgresAccessLevelRepository.AssignToUser
       (PostgresAccessLevelRepository.RemoveFromUser
          (PostgresAccessLevelRepository.AssignToUser db now1 userID accessLevelID).2
          now2 userID accessLevelID).2
       now3 userID accessLevelID).2.userAccessLevels.countP
      (UserAccessLevel.isPair userID accessLevelID) = 1 ∧
    (∀ r ∈ (PostgresAccessLevelRepository.AssignToUser
       (PostgresAccessLevelRepository.RemoveFromUser
          (PostgresAccessLevelRepository.AssignToUser db now1 userID accessLevelID).2
          now2 userID accessLevelID).2
       now3 userID accessLevelID).2.userAccessLevels,
      UserAccessLevel.isPair userID accessLevelID r = true →
        r.deletedAt = none ∧
        ∀ r1 ∈ (PostgresAccessLevelRepository.AssignToUser db now1 userID accessLevelID).2.userAccessLevels,
          UserAccessLevel.isPair userID accessLevelID r1 = true →
            r1.updatedAt < r.updatedAt) := by
  have hany1 := assignToUser_post_any db now1 userID accessLevelID h1
  have hrows1 := assignToUser_pair_rows db now1 userID accessLevelID h1
  have hcnt1 := assignToUser_countP db now1 userID accessLevelID hpk h1
  -- the remove succeeds and soft-deletes every pair row
  obtain ⟨hok2, hrows2⟩ := removeFromUser_pair_rows _ now2 userID accessLevelID
    (fun r hr hp => (hrows1 r hr hp).1) hany1
  -- the pair still has its (single) row after the remove
  have hcnt2 : (PostgresAccessLevelRepository.RemoveFromUser
      (PostgresAccessLevelRepository.AssignToUser db now1 userID accessLevelID).2
      now2 userID accessLevelID).2.userAccessLevels.countP
      (UserAccessLevel.isPair userID accessLevelID) = 1 := by
    rw [removeFromUser_countP]
    exact hcnt1
  have hany2 : (PostgresAccessLevelRepository.RemoveFromUser
      (PostgresAccessLevelRepository.AssignToUser db now1 userID accessLevelID).2
      now2 userID accessLevelID).2.userAccessLevels.any
      (UserAccessLevel.isPair userID accessLevelID) = true := by
    rw [List.any_eq_true]
    have hpos : 0 < (PostgresAccessLevelRepository.RemoveFromUser
        (PostgresAccessLevelRepository.AssignToUser db now1 userID accessLevelID).2
        now2 userID accessLevelID).2.userAccessLevels.countP
        (UserAccessLevel.isPair userID accessLevelID) := by omega
    obtain ⟨r, hr, hp⟩ := List.countP_pos_iff.1 hpos
    exact ⟨r, hr, hp⟩
  have hok3 := assignToUser_ok_of_any _ now3 userID accessLevelID hany2
  have hcnt3 := assignToUser_countP _ now3 userID accessLevelID (by omega) hok3
  refine ⟨hok2, hok3, hcnt3, ?_⟩
  intro r hr hp
  have hr3 := assignToUser_pair_rows _ now3 userID accessLevelID hok3 r hr hp
  refine ⟨hr3.1, ?_⟩
  intro r1 hr1 hp1
  rw [hr3.2, (hrows1 r1 hr1 hp1).2]
  exact h13

/-- Witness for C2 at `dbOneUserOneLevel` with times 5 (first assign),
6 (remove), 9 (second assign). -/
theorem c2_assign_remove_assign_revives_witness :
    dbOneUserOneLevel.userAccessLevels.countP (UserAccessLevel.isPair 1 1) ≤ 1 ∧
    (PostgresAccessLevelRepository.AssignToUser dbOneUserOneLevel 5 1 1).1 = .ok () ∧
    (5 : Nat) < 9 ∧
    (PostgresAccessLevelRepository.RemoveFromUser
      (PostgresAccessLevelRepository.AssignToUser dbOneUserOneLevel 5 1 1).2 6 1 1).1 = .ok () :=
  ⟨by decide, by decide, by decide,
   (c2_assign_remove_assign_revives dbOneUserOneLevel 5 6 9 1 1
     (by decide) (by decide) (by decide)).1⟩

/-- C6 counterexample: in a state reached by AssignToUser followed by
RemoveFromUser, a row for the pair (1,1) exists (it was created, then only
soft-deleted), yet a second RemoveFromUser fails with "user access level not
found" — refuting the claim that the not-found failure occurs only when no
row for the pair was ever created. -/
theorem c6_counterexample :
    (∃ r ∈ (PostgresAccessLevelRepository.RemoveFromUser
        (PostgresAccessLevelRepository.AssignToUser dbOneUserOneLevel 5 1 1).2
        6 1 1).2.userAccessLevels,
      r.userId = 1 ∧ r.accessLevelId = 1) ∧
    (PostgresAccessLevelRepository.RemoveFromUser
      (PostgresAccessLevelRepository.RemoveFromUser
        (PostgresAccessLevelRepository.AssignToUser dbOneUserOneLevel 5 1 1).2
        6 1 1).2
      7 1 1).1 = .error "user access level not found" := by
  decide

/-- C6 as amended: `RemoveFromUser` fails with "user access level not found"
if and only if no ACTIVE (deleted-at = null) row exists for the
(accountID, accessLevelID) pair — GORM's soft-delete scope restricts the
delete to active rows, so removing an assignment whose row exists but is
already soft-deleted also fails with not-found. -/
theorem c6_removeFromUser_notFound_iff_no_active_row (db : DB)
    (now userID accessLevelID : Nat) :
    (PostgresAccessLevelRepository.RemoveFromUser db now userID accessLevelID).1
        = .error "user access level not found" ↔
      ¬ ∃ r ∈ db.userAccessLevels,
          r.userId = userID ∧ r.accessLevelId = accessLevelID ∧ r.deletedAt = none := by
  unfold PostgresAccessLevelRepository.RemoveFromUser
  by_cases h : db.userAccessLevels.countP
      (UserAccessLevel.isActivePair userID accessLevelID) = 0
  · simp only [h, if_true]
    rw [List.countP_eq_zero] at h
    simp only [Except.error.injEq, true_iff]
    rintro ⟨r, hr, h1, h2, h3⟩
    exact h r hr ((isActivePair_eq_true_iff userID accessLevelID r).2 ⟨h1, h2, h3⟩)
  · simp only [h, if_false]
    constructor
    · intro hcontra
      exact absurd hcontra (by simp)
    · intro hno
      exfalso
      apply h
      rw [List.countP_eq_zero]
      intro r hr hp
      obtain ⟨h1, h2, h3⟩ := (isActivePair_eq_true_iff userID accessLevelID r).1 hp
      exact hno ⟨r, hr, h1, h2, h3⟩

/-! ## Lemmas about the users table operations -/

theorem insertUser_ok (db : DB) (u : User) (db' : DB)
    (h : db.insertUser u = .ok db') : db' = { db with users := db.users ++ [u] } := by
  unfold DB.insertUser at h
  split at h
  · exact absurd h (by simp)
  · exact (Except.ok.inj h).symm

theorem insertAuth_ok (db : DB) (a : UserAuth) (db' : DB)
    (h : db.insertAuth a = .ok db') : db' = { db with auths := db.auths ++ [a] } := by
  unfold DB.insertAuth at h
  split at h
  · exact absurd h (by simp)
  · exact (Except.ok.inj h).symm

/-- A successful `Delete` yields exactly the state with the matching active
rows stamped. -/
theorem delete_ok_state (db : DB) (now id : Nat)
    (h : (PostgresUserRepository.Delete db now id).1 = .ok ()) :
    (PostgresUserRepository.Delete db now id).2.users
      = db.users.map (fun r =>
          if r.id = id ∧ r.deletedAt = none then { r with deletedAt := some now } else r) := by
  unfold PostgresUserRepository.Delete at h ⊢
  by_cases hc : db.users.countP (fun r => decide (r.id = id ∧ r.deletedAt = none)) = 0
  · rw [if_pos hc] at h
    exact absurd h (by simp)
  · rw [if_neg hc]

/-- After a successful `Delete`, every row with the deleted id is
soft-deleted. -/
theorem delete_id_rows (db : DB) (now id : Nat)
    (h : (PostgresUserRepository.Delete db now id).1 = .ok ()) :
    ∀ r ∈ (PostgresUserRepository.Delete db now id).2.users,
      r.id = id → r.deletedAt ≠ none := by
  rw [delete_ok_state db now id h]
  intro r hr hid
  obtain ⟨x, hx, rfl⟩ := List.mem_map.1 hr
  by_cases hx2 : x.id = id ∧ x.deletedAt = none
  · rw [if_pos hx2]
    simp
  · rw [if_neg hx2] at hid ⊢
    intro hdel
    exact hx2 ⟨hid, hdel⟩

/-- `GetByID` only returns active rows of the table. -/
theorem getByID_active (db : DB) (i : Nat) (u : User)
    (h : PostgresUserRepository.GetByID db i = .ok u) :
    u ∈ db.users ∧ u.id = i ∧ u.deletedAt = none := by
  unfold PostgresUserRepository.GetByID at h
  cases hf : db.users.find? (fun r => decide (r.id = i ∧ r.deletedAt = none)) with
  | none => rw [hf] at h; exact absurd h (by simp)
  | some v =>
    rw [hf] at h
    have hv : v = u := by simpa using h
    subst hv
    have hp := List.find?_some hf
    have hm := List.mem_of_find?_eq_some hf
    simp only [decide_eq_true_eq] at hp
    exact ⟨hm, hp.1, hp.2⟩

/-- `GetByEmail` only returns active rows of the table. -/
theorem getByEmail_active (db : DB) (e : String) (u : User)
    (h : PostgresUserRepository.GetByEmail db e = .ok u) :
    u ∈ db.users ∧ u.email = e ∧ u.deletedAt = none := by
  unfold PostgresUserRepository.GetByEmail at h
  cases hf : db.users.find? (fun r => decide (r.email = e ∧ r.deletedAt = none)) with
  | none => rw [hf] at h; exact absurd h (by simp)
  | some v =>
    rw [hf] at h
    have hv : v = u := by simpa using h
    subst hv
    have hp := List.find?_some hf
    have hm := List.mem_of_find?_eq_some hf
    simp only [decide_eq_true_eq] at hp
    exact ⟨hm, hp.1, hp.2⟩

/-- Every user returned by the store's `List` is an active row of the table. -/
theorem list_active (db : DB) (limit offset : Int) (res : List User × Int)
    (h : PostgresUserRepository.List db limit offset = .ok res) :
    ∀ u ∈ res.1, u ∈ db.users ∧ u.deletedAt = none := by
  unfold PostgresUserRepository.List at h
  obtain rfl := (Except.ok.inj h).symm
  intro u hu
  have h1 := List.mem_of_mem_take hu
  have h2 := List.mem_of_mem_drop h1
  have h3 := (mem_sortBy _ _ u).1 h2
  refine ⟨List.mem_of_mem_filter h3, ?_⟩
  have := List.of_mem_filter h3
  simpa using this

/-! ## Claims C3, C4, C5 -/

/-- C3: account+credential creation is atomic — `Create` either fails and
leaves the database exactly as it was (the transaction rolls back, so in
particular a user row inserted before a failing credential insert is not
visible), or succeeds and the returned account and credential rows are both
visible in the resulting state, linked by the credential's owning-account
reference. -/
theorem c3_create_atomic (db : DB) (uid aid now : Nat) (user : User) (auth : UserAuth) :
    (∃ e, (PostgresUserRepository.Create db uid aid now user auth).1 = .error e ∧
          (PostgresUserRepository.Create db uid aid now user auth).2 = db) ∨
    (∃ u a, (PostgresUserRepository.Create db uid aid now user auth).1 = .ok (u, a) ∧
            u ∈ (PostgresUserRepository.Create db uid aid now user auth).2.users ∧
            a ∈ (PostgresUserRepository.Create db uid aid now user auth).2.auths ∧
            a.userId = u.id ∧ u.email = user.email ∧ u.id = uid) := by
  unfold PostgresUserRepository.Create
  cases hins : db.insertUser { user with id := uid, createdAt := now, updatedAt := now } with
  | error e =>
    left
    exact ⟨e, rfl, rfl⟩
  | ok db1 =>
    cases hins2 : db1.insertAuth { auth with id := aid, userId := uid, createdAt := now, updatedAt := now } with
    | error e =>
      left
      refine ⟨e, ?_, ?_⟩ <;> simp [hins2]
    | ok db2 =>
      right
      refine ⟨{ user with id := uid, createdAt := now, updatedAt := now },
              { auth with id := aid, userId := uid, createdAt := now, updatedAt := now },
              ?_, ?_, ?_, rfl, rfl, rfl⟩
      · simp [hins2]
      · have h1 := insertUser_ok db _ db1 hins
        have h2 := insertAuth_ok db1 _ db2 hins2
        simp only [hins2]
        rw [h2, h1]
        simp
      · have h2 := insertAuth_ok db1 _ db2 hins2
        simp only [hins2]
        rw [h2]
        simp

/-- C4: soft-delete invisibility — after a successful `Delete(id)` the row
count of the users table is unchanged and a row with that id is still
present (soft-deleted with the deletion timestamp), yet `GetByID(id)` fails
with "user not found", `GetByEmail` never returns that account, the store's
`List` never includes it; and in general (at any state) `GetByID`,
`GetByEmail` and `List` only ever return rows with deleted-at = null. -/
theorem c4_soft_delete_invisibility (db : DB) (now id : Nat)
    (h : (PostgresUserRepository.Delete db now id).1 = .ok ()) :
    (PostgresUserRepository.Delete db now id).2.users.length = db.users.length ∧
    (∃ r ∈ (PostgresUserRepository.Delete db now id).2.users,
       r.id = id ∧ r.deletedAt = some now) ∧
    PostgresUserRepository.GetByID (PostgresUserRepository.Delete db now id).2 id
      = .error "user not found" ∧
    (∀ e u, PostgresUserRepository.GetByEmail
        (PostgresUserRepository.Delete db now id).2 e = .ok u → u.id ≠ id) ∧
    (∀ limit offset res, PostgresUserRepository.List
        (PostgresUserRepository.Delete db now id).2 limit offset = .ok res →
       ∀ u ∈ res.1, u.id ≠ id) ∧
    (∀ (db0 : DB) (i : Nat) (u : User),
       PostgresUserRepository.GetByID db0 i = .ok u → u.deletedAt = none) ∧
    (∀ (db0 : DB) (e : String) (u : User),
       PostgresUserRepository.GetByEmail db0 e = .ok u → u.deletedAt = none) ∧
    (∀ (db0 : DB) (limit offset : Int) (res : List User × Int),
       PostgresUserRepository.List db0 limit offset = .ok res →
       ∀ u ∈ res.1, u.deletedAt = none) := by
  have hrows := delete_id_rows db now id h
  have hstate := delete_ok_state db now id h
  have hc : ¬ db.users.countP (fun r => decide (r.id = id ∧ r.deletedAt = none)) = 0 := by
    intro hc0
    unfold PostgresUserRepository.Delete at h
    rw [if_pos hc0] at h
    exact absurd h (by simp)
  refine ⟨?_, ?_, ?_, ?_, ?_, ?_, ?_, ?_⟩
  · rw [hstate, List.length_map]
  · -- the soft-deleted row is still present
    have hpos : 0 < db.users.countP (fun r => decide (r.id = id ∧ r.deletedAt = none)) := by
      omega
    obtain ⟨x, hx, hpx⟩ := List.countP_pos_iff.1 hpos
    simp only [decide_eq_true_eq] at hpx
    refine ⟨{ x with deletedAt := some now }, ?_, hpx.1, rfl⟩
    rw [hstate]
    exact List.mem_map.2 ⟨x, hx, by rw [if_pos hpx]⟩
  · -- GetByID now fails
    unfold PostgresUserRepository.GetByID
    have hfind : (PostgresUserRepository.Delete db now id).2.users.find?
        (fun r => decide (r.id = id ∧ r.deletedAt = none)) = none := by
      rw [List.find?_eq_none]
      intro x hx
      simp only [decide_eq_true_eq, not_and]
      intro hid
      exact hrows x hx hid
    rw [hfind]
  · intro e u hu
    obtain ⟨hm, _, hact⟩ := getByEmail_active _ e u hu
    intro hid
    exact hrows u hm hid hact
  · intro limit offset res hres u hu
    obtain ⟨hm, hact⟩ := list_active _ limit offset res hres u hu
    intro hid
    exact hrows u hm hid hact
  · intro db0 i u hu
    exact (getByID_active db0 i u hu).2.2
  · intro db0 e u hu
    exact (getByEmail_active db0 e u hu).2.2
  · intro db0 limit offset res hres u hu
    exact (list_active db0 limit offset res hres u hu).2

/-- Witness for C4 at `dbOneUserOneLevel`: deleting user 1 succeeds, and a
`GetByID` on the resulting state fails with "user not found". -/
theorem c4_soft_delete_invisibility_witness :
    (PostgresUserRepository.Delete dbOneUserOneLevel 3 1).1 = .ok () ∧
    PostgresUserRepository.GetByID
      (PostgresUserRepository.Delete dbOneUserOneLevel 3 1).2 1
      = .error "user not found" :=
  ⟨by decide, (c4_soft_delete_invisibility dbOneUserOneLevel 3 1 (by decide)).2.2.1⟩

/-! ## Claim C5 -/

/-- A stand-in for `bcrypt.GenerateFromPassword` (an opaque library
primitive to the core). -/
def hashStub : String → String := fun s => "$2a$10$" ++ s

/-- An insert whose email is already present in the table — active or
soft-deleted — violates the unique index on `users.email` and fails. -/
theorem insertUser_email_conflict (db : DB) (u : User)
    (h : ∃ r ∈ db.users, r.email = u.email) :
    db.insertUser u = .error "failed to insert user" := by
  obtain ⟨r, hr, he⟩ := h
  unfold DB.insertUser
  rw [if_pos]
  exact List.any_eq_true.2 ⟨r, hr, by simp [he]⟩

/-- Request used in the C5 scenario: account A with email `a@x.com`. -/
def reqAnn : CreateUserRequest :=
  { firstName := "Ann", lastName := "Lee", email := "a@x.com",
    phoneNumber := "", password := "password1" }

/-- Request used in the C5 scenario: account B reusing email `a@x.com`. -/
def reqBob : CreateUserRequest :=
  { firstName := "Bob", lastName := "Fox", email := "a@x.com",
    phoneNumber := "", password := "password2" }

/-- State after creating account A (id 1) in an empty database. -/
def dbAfterAnn : DB :=
  (UserService.CreateUser postgresUserRepo postgresAccessLevelRepo hashStub
    { users := [], auths := [], accessLevels := [], userAccessLevels := [] }
    1 11 5 reqAnn).2

/-- State after soft-deleting account A. -/
def dbAfterAnnDeleted : DB := (UserService.DeleteUser postgresUserRepo dbAfterAnn 6 1).2

/-- C5 counterexample: create account A with email `a@x.com` (succeeds),
soft-delete it (succeeds), and although the service-level duplicate check
sees no active account with that email, creating account B with the same
email FAILS — the unique index on `users.email` covers soft-deleted rows,
refuting the claim that the second create succeeds. -/
theorem c5_counterexample :
    (UserService.CreateUser postgresUserRepo postgresAccessLevelRepo hashStub
      { users := [], auths := [], accessLevels := [], userAccessLevels := [] }
      1 11 5 reqAnn).1.isOk = true ∧
    (UserService.DeleteUser postgresUserRepo dbAfterAnn 6 1).1 = .ok () ∧
    PostgresUserRepository.GetByEmail dbAfterAnnDeleted "a@x.com"
      = .error "user not found" ∧
    (UserService.CreateUser postgresUserRepo postgresAccessLevelRepo hashStub
      dbAfterAnnDeleted 2 12 7 reqBob).1
      = .error "failed to create user: failed to insert user" := by
  decide

/-- C5 as amended: email uniqueness is enforced by the database over ALL
rows, soft-deleted ones included — whenever any stored account row (active
or soft-deleted) already carries the requested email, the store's `Create`
fails and leaves the state unchanged, so a soft-deleted account's email
cannot be reused by a new account. -/
theorem c5_amended_email_unique_over_all_rows (db : DB) (uid aid now : Nat)
    (user : User) (auth : UserAuth)
    (h : ∃ r ∈ db.users, r.email = user.email) :
    (PostgresUserRepository.Create db uid aid now user auth).1.isOk = false ∧
    (PostgresUserRepository.Create db uid aid now user auth).2 = db := by
  obtain ⟨r, hr, he⟩ := h
  have hfail := insertUser_email_conflict db
    { user with id := uid, createdAt := now, updatedAt := now } ⟨r, hr, by simpa using he⟩
  unfold PostgresUserRepository.Create
  rw [hfail]
  exact ⟨rfl, rfl⟩

/-- Witness for C5-as-amended at the post-deletion state of the C5 scenario:
a soft-deleted row with email `a@x.com` exists, and a store `Create` for a
new account with that email fails. -/
theorem c5_amended_witness :
    (∃ r ∈ dbAfterAnnDeleted.users,
      r.email = ({ id := 0, firstName := "Bob", lastName := "Fox", email := "a@x.com",
                   phoneNumber := none, createdAt := 0, updatedAt := 0,
                   deletedAt := none } : User).email) ∧
    (PostgresUserRepository.Create dbAfterAnnDeleted 2 12 7
      { id := 0, firstName := "Bob", lastName := "Fox", email := "a@x.com",
        phoneNumber := none, createdAt := 0, updatedAt := 0, deletedAt := none }
      { id := 0, userId := 0, passwordHash := "h2", createdAt := 0, updatedAt := 0,
        deletedAt := none }).1.isOk = false :=
  ⟨by decide,
   (c5_amended_email_unique_over_all_rows dbAfterAnnDeleted 2 12 7
     { id := 0, firstName := "Bob", lastName := "Fox", email := "a@x.com",
       phoneNumber := none, createdAt := 0, updatedAt := 0, deletedAt := none }
     { id := 0, userId := 0, passwordHash := "h2", createdAt := 0, updatedAt := 0,
       deletedAt := none }
     (by decide)).1⟩

/-! ## Claim C7 -/

/-- C7: uniform authentication failure — whenever any of the three
authentication steps fails (no active account for the email, no credential
record for the account, or hash verification rejecting the password),
`AuthenticateUser` returns the one uniform error "invalid email or
password", so the caller cannot tell which step failed. -/
theorem c7_authenticate_uniform_failure (db : DB) (verify : String → String → Bool)
    (req : LoginRequest)
    (h : (PostgresUserRepository.GetByEmail db req.email).isOk = false ∨
         (∃ u, PostgresUserRepository.GetByEmail db req.email = .ok u ∧
               (PostgresUserRepository.GetUserAuthentication db u.id).isOk = false) ∨
         (∃ u a, PostgresUserRepository.GetByEmail db req.email = .ok u ∧
                 PostgresUserRepository.GetUserAuthentication db u.id = .ok a ∧
                 verify a.passwordHash req.password = false)) :
    UserService.AuthenticateUser postgresUserRepo postgresAccessLevelRepo verify db req
      = .error "invalid email or password" := by
  unfold UserService.AuthenticateUser postgresUserRepo
  dsimp only
  rcases h with h1 | ⟨u, hu, h2⟩ | ⟨u, a, hu, ha, h3⟩
  · cases hge : PostgresUserRepository.GetByEmail db req.email with
    | ok u =>
      rw [hge] at h1
      simp [Except.isOk, Except.toBool] at h1
    | error e => rfl
  · rw [hu]
    cases hga : PostgresUserRepository.GetUserAuthentication db u.id with
    | ok a =>
      rw [hga] at h2
      simp [Except.isOk, Except.toBool] at h2
    | error e => simp [hga]
  · rw [hu]
    simp [ha, h3]

/-- Concrete state for the C7 witness third case: user 1 with a credential
whose hash is "H". -/
def dbWithAuth : DB :=
  { dbOneUserOneLevel with
    auths := [{ id := 2, userId := 1, passwordHash := "H",
                createdAt := 0, updatedAt := 0, deletedAt := none }] }

/-- Witness for C7, exercising all three failure cases at concrete states:
(a) unknown email on an empty store, (b) account present but credential
missing, (c) account and credential present but the hash comparison
rejects. -/
theorem c7_authenticate_uniform_failure_witness :
    UserService.AuthenticateUser postgresUserRepo postgresAccessLevelRepo
      (fun _ _ => true)
      { users := [], auths := [], accessLevels := [], userAccessLevels := [] }
      { email := "nobody@x.com", password := "p" }
      = .error "invalid email or password" ∧
    UserService.AuthenticateUser postgresUserRepo postgresAccessLevelRepo
      (fun _ _ => true) dbOneUserOneLevel
      { email := "john@example.com", password := "p" }
      = .error "invalid email or password" ∧
    UserService.AuthenticateUser postgresUserRepo postgresAccessLevelRepo
      (fun _ _ => false) dbWithAuth
      { email := "john@example.com", password := "wrong" }
      = .error "invalid email or password" :=
  ⟨c7_authenticate_uniform_failure _ _ _ (Or.inl (by decide)),
   c7_authenticate_uniform_failure _ _ _ (Or.inr (Or.inl
     ⟨{ id := 1, firstName := "John", lastName := "Doe", email := "john@example.com",
        phoneNumber := none, createdAt := 0, updatedAt := 0, deletedAt := none },
      by decide, by decide⟩)),
   c7_authenticate_uniform_failure _ _ _ (Or.inr (Or.inr
     ⟨{ id := 1, firstName := "John", lastName := "Doe", email := "john@example.com",
        phoneNumber := none, createdAt := 0, updatedAt := 0, deletedAt := none },
      { id := 2, userId := 1, passwordHash := "H",
        createdAt := 0, updatedAt := 0, deletedAt := none },
      by decide, by decide, rfl⟩))⟩

/-! ## Claim C8 -/

/-- Five active accounts, for the concrete pagination example. -/
def dbFiveUsers : DB :=
  { users :=
      [{ id := 1, firstName := "A", lastName := "A", email := "u1@x.com",
         phoneNumber := none, createdAt := 1, updatedAt := 1, deletedAt := none },
       { id := 2, firstName := "B", lastName := "B", email := "u2@x.com",
         phoneNumber := none, createdAt := 2, updatedAt := 2, deletedAt := none },
       { id := 3, firstName := "C", lastName := "C", email := "u3@x.com",
         phoneNumber := none, createdAt := 3, updatedAt := 3, deletedAt := none },
       { id := 4, firstName := "D", lastName := "D", email := "u4@x.com",
         phoneNumber := none, createdAt := 4, updatedAt := 4, deletedAt := none },
       { id := 5, firstName := "E", lastName := "E", email := "u5@x.com",
         phoneNumber := none, createdAt := 5, updatedAt := 5, deletedAt := none }],
    auths := [], accessLevels := [], userAccessLevels := [] }

/-- C8: pagination normalization and total independence — for every page and
pageSize, `ListUsers` succeeds with the page normalized to at least 1, the
pageSize kept when inside [1,100] and reset to 10 otherwise, a total equal
to the number of all non-deleted accounts (independent of the page window,
since it never mentions page or pageSize), and a page of
min(pageSize, total − offset) items for offset = (page−1)·pageSize; in
particular page=2, pageSize=3 against 5 accounts returns 2 items and
total=5. -/
theorem c8_listUsers_pagination :
    (∀ (db : DB) (page pageSize : Int),
      ∃ resp : ListUsersResponse,
        UserService.ListUsers postgresUserRepo postgresAccessLevelRepo db page pageSize
          = .ok resp ∧
        resp.page = max page 1 ∧
        resp.pageSize = (if 1 ≤ pageSize ∧ pageSize ≤ 100 then pageSize else 10) ∧
        resp.total = ((db.users.filter (fun u => decide (u.deletedAt = none))).length : Int) ∧
        resp.users.length = min resp.pageSize.toNat
          ((db.users.filter (fun u => decide (u.deletedAt = none))).length
            - ((resp.page - 1) * resp.pageSize).toNat)) ∧
    (UserService.ListUsers postgresUserRepo postgresAccessLevelRepo dbFiveUsers 2 3).map
      (fun r => (r.users.length, r.total, r.page, r.pageSize)) = .ok (2, 5, 2, 3) := by
  constructor
  · intro db page pageSize
    refine ⟨_, rfl, ?_, ?_, ?_, ?_⟩
    · show (if page < 1 then (1 : Int) else page) = max page 1
      split <;> omega
    · show (if (decide (pageSize < 1) || decide (pageSize > 100)) = true
          then (10 : Int) else pageSize)
        = (if 1 ≤ pageSize ∧ pageSize ≤ 100 then pageSize else 10)
      have hcond : ((decide (pageSize < 1) || decide (pageSize > 100)) = true)
          ↔ (pageSize < 1 ∨ pageSize > 100) := by simp
      rw [if_congr hcond rfl rfl]
      split <;> split <;> omega
    · rfl
    · rw [List.length_map, List.length_take, List.length_drop, length_sortBy]
  · decide

/-! ## Claim C9 -/

/-- The empty database. -/
def emptyDb : DB := { users := [], auths := [], accessLevels := [], userAccessLevels := [] }

/-- A `UserRepository` double whose email lookup fails with a store error —
the substitution the service's own mock-based tests perform. -/
def dbDownUserRepo : UserRepositoryI :=
  { postgresUserRepo with getByEmail := fun _ _ => .error "database connection failed" }

/-- A `UserRepository` double whose email lookup reports not-found. -/
def notFoundUserRepo : UserRepositoryI :=
  { postgresUserRepo with getByEmail := fun _ _ => .error "user not found" }

/-- An `AccessLevelRepository` double whose name lookup and role lookup fail
with a store error. -/
def dbDownAccessLevelRepo : AccessLevelRepositoryI :=
  { postgresAccessLevelRepo with
    getByName := fun _ _ => .error "database connection failed",
    getUserAccessLevels := fun _ _ => .error "database connection failed" }

/-- An `AccessLevelRepository` double whose name lookup reports not-found. -/
def notFoundAccessLevelRepo : AccessLevelRepositoryI :=
  { postgresAccessLevelRepo with getByName := fun _ _ => .error "access level not found" }

/-- C9 counterexample: three service operations succeed although an
underlying store call failed — CreateUser succeeds despite the
duplicate-email lookup failing (the code discards its error:
`existingUser, _ := GetByEmail`), CreateAccessLevel succeeds despite the
duplicate-name lookup failing, and GetUser succeeds (with an empty role
list) despite the role lookup failing — refuting the claim that a store
failure in these calls never yields a successful response. -/
theorem c9_counterexample :
    (UserService.CreateUser dbDownUserRepo postgresAccessLevelRepo hashStub
      emptyDb 1 11 5 reqAnn).1.isOk = true ∧
    (AccessLevelService.CreateAccessLevel dbDownAccessLevelRepo emptyDb 5
      { name := "admin", description := "" }).1.isOk = true ∧
    (UserService.GetUser postgresUserRepo dbDownAccessLevelRepo
      dbOneUserOneLevel 1).isOk = true := by
  decide

/-- C9 as amended: the duplicate-email lookup in CreateUser, the
duplicate-name lookup in CreateAccessLevel, and the role lookup in
toUserResponse deliberately ignore store errors — a failing lookup is
treated exactly like a not-found lookup (absence of the record), and the
response assembled after a failing role lookup is the account's data with
an empty role list; these operations can therefore succeed despite the
failed store call (other store failures, such as a failing insert, are
still propagated — see the create error branches of the embedding). -/
theorem c9_amended_lookup_errors_ignored :
    (∀ (hash : String → String) (db : DB) (uid aid now : Nat) (req : CreateUserRequest),
      UserService.CreateUser dbDownUserRepo postgresAccessLevelRepo hash db uid aid now req
        = UserService.CreateUser notFoundUserRepo postgresAccessLevelRepo hash db uid aid now req) ∧
    (∀ (db : DB) (now : Nat) (req : CreateAccessLevelRequest),
      AccessLevelService.CreateAccessLevel dbDownAccessLevelRepo db now req
        = AccessLevelService.CreateAccessLevel notFoundAccessLevelRepo db now req) ∧
    (∀ (db : DB) (user : User),
      UserService.toUserResponse dbDownAccessLevelRepo db user
        = { id := user.id, firstName := user.firstName, lastName := user.lastName,
            email := user.email,
            phoneNumber := match user.phoneNumber with
              | some p => p
              | none => "",
            accessLevels := [], createdAt := user.createdAt,
            updatedAt := user.updatedAt }) :=
  ⟨fun _ _ _ _ _ _ => rfl, fun _ _ _ => rfl, fun _ _ => rfl⟩

/-! ## Claim C10 -/

/-- The store `Update` succeeds (returning the record with bumped
updated-at) when an active row with the record's id exists and no row
outside the updated set carries the record's email. -/
theorem update_ok (db : DB) (now : Nat) (user : User)
    (hconstraint : ∀ r ∈ db.users, r.email = user.email →
      r.id = user.id ∧ r.deletedAt = none)
    (hexists : ∃ r ∈ db.users, r.id = user.id ∧ r.deletedAt = none) :
    (PostgresUserRepository.Update db now user).1 = .ok { user with updatedAt := now } := by
  have h1 : ¬(db.users.any (fun r =>
      decide (¬(r.id = user.id ∧ r.deletedAt = none) ∧ r.email = user.email)) = true) := by
    intro hany
    obtain ⟨r, hr, hp⟩ := List.any_eq_true.1 hany
    simp only [decide_eq_true_eq] at hp
    exact hp.1 (hconstraint r hr hp.2)
  have h2 : ¬(db.users.countP (fun r => decide (r.id = user.id ∧ r.deletedAt = none)) = 0) := by
    obtain ⟨r, hr, hp⟩ := hexists
    have hpos : 0 < db.users.countP (fun r => decide (r.id = user.id ∧ r.deletedAt = none)) :=
      List.countP_pos_iff.2 ⟨r, hr, by simp only [decide_eq_true_eq]; exact hp⟩
    omega
  unfold PostgresUserRepository.Update
  rw [if_neg h1, if_neg h2]



/-- When every active row holding the requested email is the account being
updated, the email step never fails. -/
theorem resolveUpdateEmail_no_error (db : DB) (id : Nat) (req : UpdateUserRequest)
    (user2 : User)
    (hem : ∀ r ∈ db.users, r.email = req.email → r.id = id ∧ r.deletedAt = none) :
    ∀ e, UserService.resolveUpdateEmail postgresUserRepo db id req user2 ≠ .error e := by
  intro e hcontra
  unfold UserService.resolveUpdateEmail at hcontra
  by_cases hre : req.email ≠ ""
  · rw [if_pos hre] at hcontra
    cases hge : postgresUserRepo.getByEmail db req.email with
    | error e' =>
      rw [hge] at hcontra
      exact Except.noConfusion hcontra
    | ok existing =>
      rw [hge] at hcontra
      dsimp only at hcontra
      have hexist := getByEmail_active db req.email existing hge
      have hexid : existing.id = id := (hem existing hexist.1 hexist.2.1).1
      have hne : ¬(existing.id ≠ id) := fun hh => hh hexid
      rw [if_neg hne] at hcontra
      exact Except.noConfusion hcontra
  · rw [if_neg hre] at hcontra
    exact Except.noConfusion hcontra

/-- The record produced by the email step keeps the id and carries either
the requested or the original email. -/
theorem resolveUpdateEmail_fields (db : DB) (id : Nat) (req : UpdateUserRequest)
    (user2 user3 : User)
    (h : UserService.resolveUpdateEmail postgresUserRepo db id req user2 = .ok user3) :
    user3.id = user2.id ∧ (user3.email = req.email ∨ user3.email = user2.email) := by
  unfold UserService.resolveUpdateEmail at h
  by_cases hre : req.email ≠ ""
  · rw [if_pos hre] at h
    cases hge : postgresUserRepo.getByEmail db req.email with
    | error e' =>
      rw [hge] at h
      obtain rfl := Except.ok.inj h
      exact ⟨rfl, Or.inl rfl⟩
    | ok existing =>
      rw [hge] at h
      dsimp only at h
      by_cases hne : existing.id ≠ id
      · rw [if_pos hne] at h
        exact Except.noConfusion h
      · rw [if_neg hne] at h
        obtain rfl := Except.ok.inj h
        exact ⟨rfl, Or.inl rfl⟩
  · rw [if_neg hre] at h
    obtain rfl := Except.ok.inj h
    exact ⟨rfl, Or.inr rfl⟩

/-- The persistence step succeeds whenever the store `Update` of the final
record succeeds. -/
theorem finishUpdate_isOk (alr : AccessLevelRepositoryI) (db : DB) (now : Nat)
    (req : UpdateUserRequest) (user3 : User)
    (hupd : (postgresUserRepo.update db now
      (if req.phoneNumber ≠ "" then { user3 with phoneNumber := some req.phoneNumber }
       else user3)).1.isOk = true) :
    (UserService.finishUpdate postgresUserRepo alr db now req user3).1.isOk = true := by
  unfold UserService.finishUpdate
  dsimp only
  cases hup : (postgresUserRepo.update db now
      (if req.phoneNumber ≠ "" then { user3 with phoneNumber := some req.phoneNumber }
       else user3)).1 with
  | error e =>
    rw [hup] at hupd
    simp [Except.isOk, Except.toBool] at hupd
  | ok u => rfl

/-- C10: UpdateUser applies no format validation — for an existing account
and ANY update request (no condition on the email containing "@" or on the
name lengths), the update succeeds; the only email-specific check is
uniqueness (the hypotheses say exactly that the account exists and that no
other row holds the requested or current email).  Format validation is
performed only by CreateUser, whose validator rejects every request whose
email lacks "@". -/
theorem c10_updateUser_no_format_validation (db : DB) (now id : Nat)
    (req : UpdateUserRequest) (u0 : User)
    (hu0 : PostgresUserRepository.GetByID db id = .ok u0)
    (hemail : ∀ r ∈ db.users, (r.email = req.email ∨ r.email = u0.email) →
        r.id = id ∧ r.deletedAt = none) :
    (UserService.UpdateUser postgresUserRepo postgresAccessLevelRepo db now id req).1.isOk
        = true ∧
    (∀ (hash : String → String) (db2 : DB) (uid aid now2 : Nat) (req2 : CreateUserRequest),
       containsAtSign req2.email = false →
       (UserService.CreateUser postgresUserRepo postgresAccessLevelRepo hash
          db2 uid aid now2 req2).1.isOk = false) := by
  obtain ⟨hm0, hid0, hact0⟩ := getByID_active db id u0 hu0
  constructor
  · have hkey : ∀ u : User, u.id = u0.id → (u.email = req.email ∨ u.email = u0.email) →
        (PostgresUserRepository.Update db now u).1.isOk = true := by
      intro u huid hue
      rw [update_ok db now u ?_ ?_]
      · rfl
      · intro r hr hre
        have h := hemail r hr (by
          rcases hue with h | h
          · exact Or.inl (hre.trans h)
          · exact Or.inr (hre.trans h))
        exact ⟨h.1.trans (huid.trans hid0).symm, h.2⟩
      · exact ⟨u0, hm0, hid0.trans (huid.trans hid0).symm, hact0⟩
    unfold UserService.UpdateUser
    dsimp only
    have hu0i : postgresUserRepo.getByID db id = .ok u0 := hu0
    rw [hu0i]
    dsimp only
    split
    · next e heq2 =>
      exact absurd heq2 (resolveUpdateEmail_no_error db id req _
        (fun r hr hre => hemail r hr (Or.inl hre)) e)
    · next user3 heq2 =>
      have hf := resolveUpdateEmail_fields db id req _ user3 heq2
      have h3id : user3.id = u0.id := by
        rw [hf.1]
        split <;> split <;> rfl
      have h3email : user3.email = req.email ∨ user3.email = u0.email := by
        rcases hf.2 with h | h
        · exact Or.inl h
        · right
          rw [h]
          split <;> split <;> rfl
      exact finishUpdate_isOk postgresAccessLevelRepo db now req user3
        (hkey (if req.phoneNumber ≠ "" then { user3 with phoneNumber := some req.phoneNumber }
               else user3)
          (by split <;> exact h3id)
          (by split <;> exact h3email))
  · intro hash db2 uid aid now2 req2 hat
    have hval : (UserService.validateCreateUserRequest req2).isOk = false := by
      unfold UserService.validateCreateUserRequest
      split
      · rfl
      split
      · rfl
      split
      · rfl
      split
      · rfl
      next h4 =>
        exact absurd (by rw [hat]; rfl) h4
    unfold UserService.CreateUser
    dsimp only
    cases hv : UserService.validateCreateUserRequest req2 with
    | error e => rfl
    | ok v =>
      rw [hv] at hval
      simp [Except.isOk, Except.toBool] at hval

/-- Update request exercising C10: an email without "@" and a last name
well over 50 characters. -/
def reqNoAtSign : UpdateUserRequest :=
  { firstName := "",
    lastName := "ThisLastNameIsDefinitelyLongerThanFiftyCharactersAltogetherYesIndeed",
    email := "no-at-sign", phoneNumber := "" }

/-- Witness for C10 at `dbOneUserOneLevel`: updating user 1 with a
"@"-less email and an over-long name succeeds. -/
theorem c10_updateUser_no_format_validation_witness :
    PostgresUserRepository.GetByID dbOneUserOneLevel 1
      = .ok { id := 1, firstName := "John", lastName := "Doe",
              email := "john@example.com", phoneNumber := none,
              createdAt := 0, updatedAt := 0, deletedAt := none } ∧
    (UserService.UpdateUser postgresUserRepo postgresAccessLevelRepo
      dbOneUserOneLevel 9 1 reqNoAtSign).1.isOk = true :=
  ⟨by decide,
   (c10_updateUser_no_format_validation dbOneUserOneLevel 9 1 reqNoAtSign
     { id := 1, firstName := "John", lastName := "Doe",
       email := "john@example.com", phoneNumber := none,
       createdAt := 0, updatedAt := 0, deletedAt := none }
     (by decide) (by decide)).1⟩
